import Mathlib

/-!
Verification of the SQL statement-builder and argument-binding engine
(`dml`/`dbr` package family).  The `Dml` namespace embeds the DBR
(DataBaseRunner) value model and argument-preparation pipeline from
`src/sql/dml`; the `Dbr` namespace embeds the Select/Union/With statement
serializers exercised by the fixtures in `src/storage/dbr`.
-/

namespace Dml

/-- Error kinds of the `corestoreio/errors` package used by the dml code:
`Empty`, `Mismatch`, `NotAllowed`, `Fatal`, `NotFound`. -/
inductive DmlError where
  | empty
  | mismatch
  | notAllowed
  | fatal
  | notFound
deriving DecidableEq, Repr

/-- A single typed SQL argument value, after the Go `argument` value kinds of
package dml (`DBR.Int`, `DBR.Str`, `DBR.Bool`, `DBR.Null`, and the slice
variants `Ints`, `Strings`, `Bools`).  Time and float kinds are not modelled:
wall-clock formatting and binary floating point fall outside this embedding. -/
inductive Value where
  | null
  | int (i : Int)
  | uint (u : Nat)
  | bool (b : Bool)
  | str (s : String)
  | ints (l : List Int)
  | strs (l : List String)
  | bools (l : List Bool)
deriving DecidableEq, Repr

/-- Number of leaf values carried by one argument: a scalar counts 1, a slice
counts its length (the notion used by `arguments.totalSliceLen`). -/
def Value.leafLen : Value → Nat
  | .ints l => l.length
  | .strs l => l.length
  | .bools l => l.length
  | _ => 1

/-- Whether the argument is a slice variant. -/
def Value.isSlice : Value → Bool
  | .ints _ => true
  | .strs _ => true
  | .bools _ => true
  | _ => false

/-- Flattening of one argument into its leaf values, as performed by
`arguments.toInterfaces` when handing the final argument list to the driver. -/
def Value.leaves : Value → List Value
  | .ints l => l.map Value.int
  | .strs l => l.map Value.str
  | .bools l => l.map Value.bool
  | v => [v]

/-- Flattening of an argument list into leaf values, in order. -/
def flattenValues (args : List Value) : List Value :=
  args.flatMap Value.leaves

/-- Total leaf count and slice presence of an argument list, after
`arguments.totalSliceLen` (body not under src/, counting rule taken from the
spec: the number of leaf values, and whether any argument is a slice). -/
def totalSliceLen (args : List Value) : Nat × Bool :=
  args.foldl (fun acc v => (acc.1 + v.leafLen, acc.2 || v.isSlice)) (0, false)

/-- Modelled from the spec: MySQL string-literal escaping of one character
(the dialect escaping of the interpolation engine, not under src/):
backslash-escape quote, double quote, backslash and the
control characters NUL, LF, CR and SUB; every other character is copied. -/
def escapeStringChar (c : Char) : String :=
  if c.toNat = 92 then "\\\\"
  else if c.toNat = 39 then "\\'"
  else if c.toNat = 34 then "\\\""
  else if c.toNat = 0 then "\\0"
  else if c.toNat = 10 then "\\n"
  else if c.toNat = 13 then "\\r"
  else if c.toNat = 26 then "\\Z"
  else String.singleton c

/-- Modelled from the spec: single-quoted, backslash-escaped SQL string
literal. -/
def mysqlQuote (s : String) : String :=
  "'" ++ String.join (s.data.map escapeStringChar) ++ "'"

/-- Modelled from the spec: literal SQL rendering of one argument (the
value-rendering of `writeInterpolate`, not under src/): strings
single-quoted and escaped,
integers in decimal, booleans as 0/1 (MySQL convention), NULL as bare NULL;
a slice renders as its comma-joined member literals (this is how one `?`
standing for a whole slice interpolates, e.g. `IN (?)` with three ints). -/
def literalOf : Value → String
  | .null => "NULL"
  | .int i => toString i
  | .uint u => toString u
  | .bool b => if b then "1" else "0"
  | .str s => mysqlQuote s
  | .ints l => String.intercalate "," (l.map (fun i => toString i))
  | .strs l => String.intercalate "," (l.map mysqlQuote)
  | .bools l => String.intercalate "," (l.map (fun b => if b then "1" else "0"))

/-- Modelled from the spec: core loop of `writeInterpolate` (function body not
under src/; only its caller `BenchmarkInterpolate` is).  Walk the template and
emit, instead of each `?` placeholder, the literal SQL form of the next
argument; an argument-count mismatch is an error. -/
def interpolateChars : List Value → List Char → Except DmlError String
  | args, [] => if args.isEmpty then .ok "" else .error .mismatch
  | args, c :: cs =>
    if c = '?' then
      match args with
      | [] => .error .mismatch
      | a :: rest =>
        match interpolateChars rest cs with
        | .ok s => .ok (literalOf a ++ s)
        | .error e => .error e
    else
      match interpolateChars args cs with
      | .ok s => .ok (String.singleton c ++ s)
      | .error e => .error e

/-- Modelled from the spec: `writeInterpolate` rewrites a cached SQL template
into a fully literal SQL string. -/
def writeInterpolate (sql : String) (args : List Value) : Except DmlError String :=
  interpolateChars args sql.data

/-- Number of `?` placeholder bytes in a template
(`bytes.Count(sqlBuf.First.Bytes(), placeHolderByte)`). -/
def countPlaceHolders (sql : String) : Nat :=
  sql.data.count '?'

/-- Comma-joined run of `n` placeholders. -/
def phList (n : Nat) : String :=
  String.intercalate "," (List.replicate n "?")

/-- Modelled from the spec: core loop of `expandPlaceHolders` (function body
not under src/; only its caller `DBR.prepareArgs` is).  Each single `?` whose
corresponding argument is a slice of length N becomes N comma-joined `?`
placeholders; a `?` for a scalar argument is kept; other characters copy. -/
def expandChars : List Value → List Char → String
  | _, [] => ""
  | args, c :: cs =>
    if c = '?' then
      match args with
      | [] => "?" ++ expandChars [] cs
      | a :: rest => (if a.isSlice then phList a.leafLen else "?") ++ expandChars rest cs
    else
      String.singleton c ++ expandChars args cs

/-- Modelled from the spec: `expandPlaceHolders` applied to a template. -/
def expandPlaceHolders (sql : String) (args : List Value) : String :=
  expandChars args sql.data

/-- The placeholder-expansion gate of `DBR.prepareArgs`: expansion runs only
when the placeholder count falls short of the total leaf count or some
argument is a slice; otherwise the template is passed through unchanged. -/
def expandStep (sql : String) (args : List Value) : String :=
  let phCount := countPlaceHolders sql
  let t := totalSliceLen args
  if phCount < t.1 || t.2 then expandPlaceHolders sql args else sql

/-- The option bit set by `DBR.ExpandPlaceHolders` (`argOptionExpandPlaceholder`). -/
def argOptionExpandPlaceholder : Nat := 1

/-- The option bit set by `DBR.Interpolate` (`argOptionInterpolate`). -/
def argOptionInterpolate : Nat := 2

/-- One entry of the DBR `arguments` slice: a plain positional value, or a
`sql.NamedArg` wrapping a value under a name (`DBR.NamedArg`). -/
inductive Argument where
  | unnamed (v : Value)
  | named (name : String) (v : Value)
deriving DecidableEq, Repr

/-- Whether the argument is a `sql.NamedArg`. -/
def Argument.isNamed : Argument → Bool
  | .named _ _ => true
  | .unnamed _ => false

/-- The value carried by the argument. -/
def Argument.value : Argument → Value
  | .named _ v => v
  | .unnamed v => v

/-- Flattening of collected arguments into driver-level leaf values
(`arguments.toInterfaces`). -/
def flattenArguments (args : List Argument) : List Value :=
  flattenValues (args.map Argument.value)

/-- A qualified record: a domain object paired with the table qualifier it
supplies values for (`dml.Qualify`).  The record's `MapColumns` capability is
modelled as a total per-column mapping returning the values the record appends
for a requested column (record-side mapping errors are not modelled; the
claims only concern successful mappings). -/
structure QualifiedRecord where
  qualifier : String
  mapColumns : String → List Value

/-- Helper of `DBR.nextUnnamedArg`: the n-th non-named entry of the argument
slice, scanning in order. -/
def findUnnamed : List Argument → Nat → Option Argument
  | [], _ => none
  | a :: rest, n =>
    if a.isNamed then findUnnamed rest n
    else
      match n with
      | 0 => some a
      | m + 1 => findUnnamed rest m

/-- `DBR.nextUnnamedArg`: returns the next unused positional (unnamed)
argument, advancing the cursor; when none is left, the cursor is parked at -1
and nothing is returned. -/
def nextUnnamedArg (args : List Argument) (pos : Int) : Option Argument × Int :=
  if pos < 0 then (none, -1)
  else
    match findUnnamed args pos.toNat with
    | some a => (some a, pos + 1)
    | none => (none, -1)

/-- Helper of `splitColumn`: split a character list at its last dot. -/
def splitColumnChars : List Char → Option (List Char × List Char)
  | [] => none
  | c :: cs =>
    match splitColumnChars cs with
    | some (q, col) => some (c :: q, col)
    | none => if c = '.' then some ([], cs) else none

/-- Modelled from the spec: `splitColumn` (body not under src/) splits a
qualified identifier `table.column` at its final dot into qualifier and
column; an identifier without a dot (or with a dot in first position) has an
empty qualifier. -/
def splitColumn (identifier : String) : String × String :=
  match splitColumnChars identifier.data with
  | some (q, col) => if q.isEmpty then ("", identifier) else (String.mk q, String.mk col)
  | none => ("", identifier)

/-- Modelled from the spec: `cutNamedArgStartStr` (body not under src/)
removes the leading colon of a named-argument column like `:email`. -/
def cutNamedArgStartStr (s : String) : String × Bool :=
  match s.data with
  | c :: rest => if c = ':' then (String.mk rest, true) else (s, false)
  | [] => (s, false)

/-- Helper of `DBR.MapColumns`: first argument whose `sql.NamedArg` name
matches the column, by case-sensitive comparison. -/
def findNamed : List Argument → String → Option Argument
  | [], _ => none
  | a :: rest, c =>
    match a with
    | .named n _ => if n = c then some a else findNamed rest c
    | .unnamed _ => findNamed rest c

/-- `DBR.MapColumns` restricted to one requested column (the column map is
created with a single column slot in `appendConvertedRecordsToArguments`):
appends the first named argument matching the column, or nothing. -/
def MapColumns (args : List Argument) (c : String) : List Argument :=
  if c = "" then []
  else
    match findNamed args c with
    | some a => [a]
    | none => []

/-- The statement source of a DBR (`dmlSourceInsert`, `dmlSourceSelect`, ...). -/
inductive DmlSource where
  | insert
  | select
  | update
  | delete
deriving DecidableEq, Repr

/-- The DBR state: cached SQL templates per cache key, bound arguments,
qualified records, insert bookkeeping, options and cursors — the fields of the
Go `DBR` and its embedded `builderCommon` that the argument-resolution code
reads or writes. -/
structure DBRState where
  cachedSQL : List (String × String) := []
  cacheKey : String := ""
  source : DmlSource := .select
  isPrepared : Bool := false
  options : Nat := 0
  hasNamedArgs : Nat := 0
  nextUnnamedArgPos : Int := 0
  arguments : List Argument := []
  recs : List QualifiedRecord := []
  orderBys : List String := []
  limitValid : Bool := false
  offsetValid : Bool := false
  limitCount : Nat := 0
  offsetCount : Nat := 0
  insertCachedSQL : String := ""
  insertColumnCount : Nat := 0
  insertRowCount : Nat := 0
  insertIsBuildValues : Bool := false
  qualifiedColumns : List String := []
  qualifiedColumnsAliases : List String := []
  defaultQualifier : String := ""
  templateStmtCount : Nat := 0
  argErr : Option DmlError := none

/-- Lookup of the cached SQL template for a cache key
(`a.base.cachedSQL[a.base.CacheKey]`). -/
def lookupSQL (m : List (String × String)) (k : String) : Option String :=
  match m.find? (fun p => p.1 == k) with
  | some p => some p.2
  | none => none

/-- `DBR.isEmpty`: no internal arguments and no internal qualified records. -/
def DBRState.isEmpty (a : DBRState) : Bool :=
  a.arguments.isEmpty && a.recs.isEmpty

/-- `DBR.Reset`: clears the record list, the argument list, the unnamed-arg
cursor and the INSERT build state, retaining everything else — in particular
the cached SQL templates. -/
def Reset (a : DBRState) : DBRState :=
  { a with
    recs := []
    arguments := []
    nextUnnamedArgPos := 0
    insertIsBuildValues := false
    insertCachedSQL := "" }

/-- The deferred `a.Reset()` that `DBR.Load`, `loadPrimitive`, `LoadInt64s`,
`LoadUint64s`, `LoadFloat64s` and `LoadStrings` run after querying: the
state effect of a completed load on the DBR. -/
def loadFinalize (a : DBRState) : DBRState :=
  Reset a

/-- Modelled from the spec: `multiplyArguments` (body not under src/) repeats
the argument set once per statement-template repetition, for UNION templates
applied N times. -/
def multiplyArguments (args : List Argument) (factor : Nat) : List Argument :=
  (List.replicate factor args).flatten

/-- Inner record scan of `appendConvertedRecordsToArguments` for one qualified
column: walks the records; an empty record qualifier facing a qualified column
is treated as the default qualifier, and an empty column qualifier facing a
qualified record is replaced by the default qualifier (this replacement
persists for the remaining records); every record whose qualifier matches maps
its value for the column. -/
def scanRecs (defaultQualifier column : String) :
    List QualifiedRecord → String → Bool → List Argument → String × Bool × List Argument
  | [], qualifier, found, acc => (qualifier, found, acc)
  | r :: rest, qualifier, found, acc =>
    let rq := if r.qualifier = "" ∧ qualifier ≠ "" then defaultQualifier else r.qualifier
    let qualifier' := if rq ≠ "" ∧ qualifier = "" then defaultQualifier else qualifier
    if rq = qualifier' then
      scanRecs defaultQualifier column rest qualifier' true
        (acc ++ (r.mapColumns column).map Argument.unnamed)
    else
      scanRecs defaultQualifier column rest qualifier' found acc

/-- Resolution of one qualified-column identifier inside
`appendConvertedRecordsToArguments`: named arguments resolve against the
argument list; otherwise matching records supply values; otherwise the next
unused positional argument is consumed — and when none remains, the
identifier is silently skipped. -/
def resolveIdentifier (a : DBRState) (recs : List QualifiedRecord)
    (st : List Argument × Int) (identifier : String) : List Argument × Int :=
  let q := splitColumn identifier
  let c := cutNamedArgStartStr q.2
  if c.2 = true ∧ a.arguments ≠ [] then
    (st.1 ++ MapColumns a.arguments c.1, st.2)
  else
    let scanned := scanRecs a.defaultQualifier c.1 recs q.1 false []
    if scanned.2.1 = true then
      (st.1 ++ scanned.2.2, st.2)
    else
      match nextUnnamedArg a.arguments st.2 with
      | (some pArg, pos) => (st.1 ++ [pArg], pos)
      | (none, pos) => (st.1, pos)

/-- The per-template-repetition loop of `appendConvertedRecordsToArguments`:
resolves every qualified column in SQL order, then resets the unnamed-argument
cursor to zero for the next repetition. -/
def runTemplate (a : DBRState) (recs : List QualifiedRecord) (qcols : List String) :
    Nat → List Argument × Int → List Argument × Int
  | 0, st => st
  | n + 1, st =>
    let st1 := qcols.foldl (resolveIdentifier a recs) st
    runTemplate a recs qcols n (st1.1, 0)

/-- `DBR.appendConvertedRecordsToArguments`: appends the argument values
extracted from the qualified records (and named/positional arguments) to the
collected arguments, walking the qualified columns in the order they occur in
the cached SQL. -/
def appendConvertedRecordsToArguments (a : DBRState) (collectedArgs : List Argument)
    (recs : List QualifiedRecord) : Except DmlError (List Argument) :=
  let tsc := if a.templateStmtCount = 0 then 1 else a.templateStmtCount
  if a.arguments = [] ∧ recs.isEmpty = true then .ok collectedArgs
  else if a.arguments ≠ [] ∧ recs.isEmpty = true ∧ a.hasNamedArgs < 2 then
    .ok (if tsc > 1 then multiplyArguments a.arguments tsc else collectedArgs)
  else if a.qualifiedColumnsAliases ≠ [] ∧
      a.qualifiedColumnsAliases.length ≠ a.qualifiedColumns.length then
    .error .mismatch
  else
    let qcols :=
      if a.qualifiedColumnsAliases ≠ [] then a.qualifiedColumnsAliases
      else a.qualifiedColumns
    let res := runTemplate a recs qcols tsc ([], a.nextUnnamedArgPos)
    .ok (if res.1 ≠ [] then res.1 else collectedArgs)

/-- Modelled from the spec: the suffix written by `sqlWriteOrderBy` (body
not under src/; identifier quoting elided — the embedded claims never
populate it). -/
def orderBySuffix (obs : List String) : String :=
  if obs.isEmpty then "" else " ORDER BY " ++ String.intercalate ", " obs

/-- Modelled from the spec: the suffix written by `sqlWriteLimitOffset`
(body not under src/): `LIMIT n OFFSET m`. -/
def limitSuffix (limitValid offsetValid : Bool) (limitCount offsetCount : Nat) : String :=
  (if limitValid then " LIMIT " ++ toString limitCount else "") ++
    (if offsetValid then " OFFSET " ++ toString offsetCount else "")

/-- Dropping a prefix by a predicate never lengthens a list (helper for the
termination of `extractNamedChars`). -/
theorem lengthDropWhileLe (p : Char → Bool) (l : List Char) :
    (l.dropWhile p).length ≤ l.length :=
  (List.IsSuffix.sublist (List.dropWhile_suffix p)).length_le

/-- Modelled from the spec: `extractReplaceNamedArgs` (body not under src/)
replaces each named placeholder `:name` in the template by `?`, collecting the
names (colon kept) onto the qualified columns; also reports whether any was
found. -/
def extractNamedChars : List Char → List Char × List String × Bool
  | [] => ([], [], false)
  | c :: cs =>
    if c = ':' ∧ cs.headD ' ' ≠ ' ' ∧ (cs.headD ' ').isAlpha then
      let name := cs.takeWhile (fun d => d.isAlphanum || d = '_')
      let rest := cs.dropWhile (fun d => d.isAlphanum || d = '_')
      let r := extractNamedChars rest
      ('?' :: r.1, (":" ++ String.mk name) :: r.2.1, true)
    else
      let r := extractNamedChars cs
      (c :: r.1, r.2.1, r.2.2)
termination_by l => l.length
decreasing_by
  · simp only [List.length_cons]
    have := lengthDropWhileLe (fun d => d.isAlphanum || d = '_') cs
    omega
  · simp

/-- Modelled from the spec: `extractReplaceNamedArgs` applied to a template
and the current qualified columns. -/
def extractReplaceNamedArgs (sql : String) (qcols : List String) :
    String × List String × Bool :=
  let r := extractNamedChars sql.data
  (String.mk r.1, qcols ++ r.2.1, r.2.2)

/-- An argument passed by the caller to `ToSQL`/`Query`/`Exec`: either a raw
untyped value or a qualified record (which `prepareArgs` filters out first). -/
inductive ExtArg where
  | raw (v : Value)
  | record (r : QualifiedRecord)

/-- Substring search helper (the `strings.Index` of `prepareArgsInsert`). -/
def findSubIndexAux (needle : List Char) : List Char → Nat → Option Nat
  | [], _ => none
  | c :: cs, n =>
    if List.isPrefixOf needle (c :: cs) then some n else findSubIndexAux needle cs (n + 1)

/-- The `ON DUPLICATE KEY UPDATE` marker searched by `prepareArgsInsert`
(`onDuplicateKeyPartS`). -/
def onDuplicateKeyPartS : String := " ON DUPLICATE KEY UPDATE"

/-- Modelled from the spec: `writeInsertPlaceholders` (body not under src/)
writes the `VALUES (?,?),(?,?)` placeholder matrix for the given row and
column counts. -/
def writeInsertPlaceholders (rowCount columnCount : Nat) : String :=
  " VALUES " ++
    String.intercalate ","
      (List.replicate rowCount ("(" ++ phList columnCount ++ ")"))

/-- `DBR.prepareArgsInsert`: the INSERT-specific preparation path — maps the
records (rejecting any with a qualifier as Fatal), builds the VALUES
placeholder list once, caches it in `insertCachedSQL`, rejects raw external
arguments under active options as NotAllowed, and otherwise returns the
insert SQL with the flattened arguments appended to the external ones. -/
def prepareArgsInsert (a : DBRState) (extVals : List Value)
    (recs : List QualifiedRecord) : Except DmlError (String × List Value) :=
  let lenInsertCachedSQL := a.insertCachedSQL.length
  let cachedSQL := (lookupSQL a.cachedSQL a.cacheKey).getD ""
  let cachedSQL := if lenInsertCachedSQL > 0 then a.insertCachedSQL else cachedSQL
  if recs.any (fun r => r.qualifier ≠ "") = true then .error .fatal
  else
    let cmArgs := a.arguments ++
      recs.flatMap (fun r => (a.qualifiedColumns.flatMap r.mapColumns).map Argument.unnamed)
    if a.isPrepared = true then .ok ("", extVals ++ flattenArguments cmArgs)
    else
      let totalArgLen := cmArgs.length + extVals.length
      let built :=
        if a.insertIsBuildValues = false ∧ lenInsertCachedSQL = 0 then
          let phPart :=
            if a.insertRowCount > 0 then
              writeInsertPlaceholders a.insertRowCount (totalArgLen / a.insertRowCount)
            else if a.insertColumnCount > 0 then
              let rowCount := totalArgLen / a.insertColumnCount
              writeInsertPlaceholders (if rowCount = 0 then 1 else rowCount) a.insertColumnCount
            else ""
          match findSubIndexAux onDuplicateKeyPartS.data cachedSQL.data 0 with
          | some p =>
            if p > 0 then
              String.mk (cachedSQL.data.take p) ++ phPart ++ String.mk (cachedSQL.data.drop p)
            else cachedSQL ++ phPart
          | none => cachedSQL ++ phPart
        else cachedSQL
      let insertSQL := if lenInsertCachedSQL = 0 then built else a.insertCachedSQL
      if 0 < a.options ∧ extVals ≠ [] ∧ recs.isEmpty = true ∧ cmArgs = [] then
        .error .notAllowed
      else if a.options &&& argOptionInterpolate ≠ 0 then
        match writeInterpolate built (cmArgs.map Argument.value) with
        | .ok s => .ok (s, [])
        | .error e => .error e
      else .ok (insertSQL, extVals ++ flattenArguments cmArgs)

/-- `DBR.prepareArgs`: the general argument-preparation pipeline — splits the
external arguments into raw values and qualified records, dispatches INSERT
statements to `prepareArgsInsert`, requires a cached SQL template, returns
early when no internal arguments or records exist, resolves named arguments,
collects record-extracted arguments, rejects raw external arguments under
active options as NotAllowed, expands placeholders and interpolates on
demand. -/
def prepareArgs (a : DBRState) (extArgs : List ExtArg) : Except DmlError (String × List Value) :=
  match a.argErr with
  | some e => .error e
  | none =>
    let extVals := extArgs.filterMap (fun x => match x with | .raw v => some v | _ => none)
    let recs :=
      (extArgs.filterMap (fun x => match x with | .record r => some r | _ => none)) ++ a.recs
    if a.source = .insert then prepareArgsInsert a extVals recs
    else
      let csql? := lookupSQL a.cachedSQL a.cacheKey
      if a.isPrepared = false ∧ csql? = none then .error .empty
      else
        let cachedSQL := csql?.getD ""
        if a.isEmpty = true ∧ recs.isEmpty = true then
          if a.isPrepared = true then .ok ("", extVals)
          else if a.orderBys.isEmpty = true ∧ a.limitValid = false then .ok (cachedSQL, extVals)
          else
            .ok (cachedSQL ++ orderBySuffix a.orderBys ++
              limitSuffix a.limitValid a.offsetValid a.limitCount a.offsetCount, extVals)
        else
          let step :=
            if a.isPrepared = false ∧ a.hasNamedArgs = 0 then
              let e := extractReplaceNamedArgs cachedSQL a.qualifiedColumns
              let hna :=
                if e.2.2 = true then 2
                else if recs.isEmpty = true ∧ a.arguments ≠ [] ∧
                    a.arguments.any Argument.isNamed = true then 2
                else 1
              (e.1, e.2.1, hna)
            else (cachedSQL, a.qualifiedColumns, a.hasNamedArgs)
          let a' := { a with qualifiedColumns := step.2.1, hasNamedArgs := step.2.2 }
          match appendConvertedRecordsToArguments a' a.arguments recs with
          | .error e => .error e
          | .ok collected =>
            if a.isPrepared = true then .ok ("", extVals ++ flattenArguments collected)
            else
              let sqlStr := step.1 ++ orderBySuffix a.orderBys ++
                limitSuffix a.limitValid a.offsetValid a.limitCount a.offsetCount
              if 0 < a.options ∧ extVals ≠ [] ∧ recs.isEmpty = true ∧
                  a.arguments = [] then
                .error .notAllowed
              else
                let sqlStr :=
                  if a.options &&& argOptionExpandPlaceholder ≠ 0 then
                    expandStep sqlStr (collected.map Argument.value)
                  else sqlStr
                if a.options &&& argOptionInterpolate ≠ 0 then
                  match writeInterpolate sqlStr (collected.map Argument.value) with
                  | .ok s => .ok (s, [])
                  | .error e => .error e
                else .ok (sqlStr, extVals ++ flattenArguments collected)

end Dml

namespace Dbr

/-!
Modelled from the spec: the statement builders of the `dbr` package (Select,
Union, With/CTE) and their condition serializer.  The builder bodies are not
under src/ — only their test fixtures in `src/storage/dbr/select_test.go` are
— so the definitions below follow the spec's serialization rules (sections
4.2–4.4) and are cross-checked against those fixtures.
-/

/-- Modelled from the spec: the comparison operators of a Condition. -/
inductive Op where
  | equal
  | notEqual
  | less
  | greater
  | lessOrEqual
  | greaterOrEqual
  | inOp
  | notIn
  | like
  | notLike
  | between
  | notBetween
  | isNull
  | isNotNull
deriving DecidableEq, Repr

/-- Modelled from the spec: one entry of a `Conditions` list — a parenthesis
sentinel, a column
comparison (`Column(name)` with chained operator and values and an optional
`.Or()` marker), or a raw expression (`Expr`). -/
inductive Cond where
  | parenOpen
  | parenClose
  | col (name : String) (op : Op) (args : List Dml.Value) (isOr : Bool)
  | expr (raw : String) (args : List Dml.Value) (isOr : Bool)
deriving DecidableEq, Repr

/-- Modelled from the spec: the stored AND/OR connector of a condition
(`.Or()` sets OR; AND is the default). -/
def Cond.isOr : Cond → Bool
  | .col _ _ _ o => o
  | .expr _ _ o => o
  | _ => false

/-- The argument values bound to one condition. -/
def condArgs : Cond → List Dml.Value
  | .col _ _ args _ => args
  | .expr _ args _ => args
  | _ => []

/-- Modelled from the spec: backtick-quoting of an identifier (the dbr
Quoter, not under src/) — each dot-separated segment is wrapped
in backticks (`e.price` becomes `` `e`.`price` ``) and stray backticks are
stripped, as the fixtures show for `z`z`. -/
def quoteName (s : String) : String :=
  "`" ++
    String.mk
      (s.data.flatMap fun c =>
        if c = '.' then ['`', '.', '`'] else if c = '`' then [] else [c]) ++
    "`"

/-- Modelled from the spec: the placeholder list of an IN clause — one `?`
per leaf value, parenthesized;
an empty slice yields nothing at all (the deliberately incomplete `IN `
rendering). -/
def inPlaceHolders (args : List Dml.Value) : String :=
  let n := (Dml.totalSliceLen args).1
  if n = 0 then "" else "(" ++ Dml.phList n ++ ")"

/-- Modelled from the spec: the operator-and-placeholder fragment following
the quoted column. -/
def renderOp (op : Op) (args : List Dml.Value) : String :=
  match op with
  | .equal => " = ?"
  | .notEqual => " != ?"
  | .less => " < ?"
  | .greater => " > ?"
  | .lessOrEqual => " <= ?"
  | .greaterOrEqual => " >= ?"
  | .like => " LIKE ?"
  | .notLike => " NOT LIKE ?"
  | .between => " BETWEEN ? AND ?"
  | .notBetween => " NOT BETWEEN ? AND ?"
  | .isNull => " IS NULL"
  | .isNotNull => " IS NOT NULL"
  | .inOp => " IN " ++ inPlaceHolders args
  | .notIn => " NOT IN " ++ inPlaceHolders args

/-- Modelled from the spec: the body of one condition, without connector and
wrapping parentheses. -/
def renderCond : Cond → String
  | .col name op args _ => quoteName name ++ renderOp op args
  | .expr raw _ _ => raw
  | _ => ""

/-- Modelled from the spec: the condition-list serializer (the dbr
Conditions writer, not under src/) — every non-sentinel condition is wrapped in
parentheses; before each condition except the first, the stored connector of
the condition being written is emitted; `ParenthesisOpen`/`Close` sentinels
open and close an explicit group, and the first condition inside a group gets
no connector. -/
def writeCondsGo : List Cond → Bool → String
  | [], _ => ""
  | .parenOpen :: rest, isFirst =>
    (if isFirst then "(" else " AND (") ++ writeCondsGo rest true
  | .parenClose :: rest, _ => ")" ++ writeCondsGo rest false
  | c :: rest, isFirst =>
    (if isFirst then "" else if c.isOr then " OR " else " AND ") ++
      "(" ++ renderCond c ++ ")" ++ writeCondsGo rest false

/-- Modelled from the spec: serialization of a full condition list. -/
def writeConds (cs : List Cond) : String :=
  writeCondsGo cs true

/-- The serializer that the claim's words describe: before each condition
except the first, emit the stored connector of the condition that PRECEDES
the boundary.  Kept side by side with `writeConds` to compare the claim
against the modelled code. -/
def writeCondsClaim (cs : List Cond) : String :=
  writeCondsClaimGo cs none
where
  writeCondsClaimGo : List Cond → Option Bool → String
    | [], _ => ""
    | c :: rest, prev =>
      (match prev with
       | none => ""
       | some o => if o then " OR " else " AND ") ++
        "(" ++ renderCond c ++ ")" ++ writeCondsClaimGo rest (some c.isOr)

/-- Modelled from the spec: the flattened argument leaves of a condition
list, in order. -/
def condsArgValues (cs : List Cond) : List Dml.Value :=
  Dml.flattenValues (cs.flatMap condArgs)

/-- Modelled from the spec: one selected column — a quoted identifier or a
raw fragment added through
`Unsafe().AddColumns` / `Star()`. -/
inductive SelCol where
  | quoted (name : String)
  | raw (s : String)
deriving DecidableEq, Repr

/-- Modelled from the spec: rendering of one selected column. -/
def renderSelCol : SelCol → String
  | .quoted n => quoteName n
  | .raw s => s

/-- Modelled from the spec: the Select statement builder state (the dbr
Select struct, not under src/). -/
structure Select where
  distinct : Bool := false
  isCountStar : Bool := false
  columns : List SelCol := []
  fromTable : Option (String × Option String) := none
  wheres : List Cond := []
  groupBys : List String := []
  havings : List Cond := []
  orderBys : List String := []
  limit? : Option Nat := none
  offset? : Option Nat := none
  useCache : Bool := false
  cacheSQL : Option String := none

/-- Modelled from the spec: `Columns.WriteQuoted` — the comma-joined
rendering of the stored column list, independent of the COUNT(*) swap. -/
def writeQuotedColumns (s : Select) : String :=
  String.intercalate ", " (s.columns.map renderSelCol)

/-- Modelled from the spec: the column fragment of the generated SQL —
`Count()` swaps in
`COUNT(*) AS counted` while the stored column list stays intact. -/
def columnsFragment (s : Select) : String :=
  if s.isCountStar then "COUNT(*) AS `counted`" else writeQuotedColumns s

/-- Modelled from the spec: the FROM fragment with optional alias. -/
def fromFragment (s : Select) : String :=
  match s.fromTable with
  | none => ""
  | some (t, none) => " FROM " ++ quoteName t
  | some (t, some al) => " FROM " ++ quoteName t ++ " AS " ++ quoteName al

/-- Modelled from the spec: all clauses after the FROM fragment, in the
Select clause order —
WHERE, GROUP BY, HAVING, ORDER BY, LIMIT, OFFSET. -/
def tailFragment (s : Select) : String :=
  (if s.wheres.isEmpty then "" else " WHERE " ++ writeConds s.wheres) ++
    (if s.groupBys.isEmpty then ""
     else " GROUP BY " ++ String.intercalate ", " (s.groupBys.map quoteName)) ++
    (if s.havings.isEmpty then "" else " HAVING " ++ writeConds s.havings) ++
    (if s.orderBys.isEmpty then ""
     else " ORDER BY " ++ String.intercalate ", " (s.orderBys.map quoteName)) ++
    (match s.limit? with
     | none => ""
     | some n => " LIMIT " ++ toString n) ++
    (match s.offset? with
     | none => ""
     | some n => " OFFSET " ++ toString n)

/-- Modelled from the spec: serialization of a Select statement. -/
def serializeSelect (s : Select) : String :=
  "SELECT " ++ (if s.distinct then "DISTINCT " else "") ++ columnsFragment s ++
    fromFragment s ++ tailFragment s

/-- Modelled from the spec: the flattened bound argument leaves of a Select,
WHERE before HAVING. -/
def selectArgs (s : Select) : List Dml.Value :=
  condsArgValues s.wheres ++ condsArgValues s.havings

/-- Modelled from the spec: `Select.BuildCache` marks the statement so its
first serialized SQL string is retained verbatim. -/
def Select.BuildCache (s : Select) : Select :=
  { s with useCache := true }

/-- Modelled from the spec: `Select.Count` swaps the generated column list
for `COUNT(*) AS counted` while preserving the stored column list. -/
def Select.Count (s : Select) : Select :=
  { s with isCountStar := true }

/-- Modelled from the spec: `Select.ToSQL` consults the build cache first;
on a miss it serializes
and, for a `BuildCache()`-marked statement, retains the string.  Returns the
possibly-updated builder, the SQL string and the flattened arguments. -/
def Select.ToSQL (s : Select) : Select × String × List Dml.Value :=
  match s.cacheSQL with
  | some q => (s, q, selectArgs s)
  | none =>
    let q := serializeSelect s
    (if s.useCache then { s with cacheSQL := some q } else s, q, selectArgs s)

/-- Modelled from the spec: a Union — member Selects each parenthesized,
joined by UNION [ALL]. -/
structure UnionStmt where
  selects : List Select
  isAll : Bool := false

/-- Modelled from the spec: serialization of a Union. -/
def serializeUnion (u : UnionStmt) : String :=
  String.intercalate (if u.isAll then "\nUNION ALL\n" else "\nUNION\n")
    (u.selects.map fun s => "(" ++ serializeSelect s ++ ")")

/-- Modelled from the spec: the concatenated arguments of a Union, in member
order. -/
def unionArgs (u : UnionStmt) : List Dml.Value :=
  u.selects.flatMap selectArgs

/-- Modelled from the spec: one CTE definition — name, optional column list,
and a body that is either
a single Select or a Union (a recursive CTE requires a Union body). -/
structure WithCTE where
  name : String
  columns : List String := []
  sel : Option Select := none
  union : Option UnionStmt := none

/-- Modelled from the spec: the serialized body of a CTE; a definition with
neither a Select nor a Union body is an Empty error. -/
def cteBody (c : WithCTE) : Except Dml.DmlError (String × List Dml.Value) :=
  match c.sel, c.union with
  | some s, _ => .ok (serializeSelect s, selectArgs s)
  | none, some u => .ok (serializeUnion u, unionArgs u)
  | none, none => .error .empty

/-- Modelled from the spec: one CTE header-and-body fragment —
`` `name` (`col`,...) AS (body) `` — a Union body keeps its own member
parentheses inside the wrapping CTE parentheses. -/
def serializeCTE (c : WithCTE) : Except Dml.DmlError (String × List Dml.Value) :=
  match cteBody c with
  | .error e => .error e
  | .ok (b, args) =>
    .ok
      (quoteName c.name ++
        (if c.columns.isEmpty then ""
         else " (" ++ String.intercalate "," (c.columns.map quoteName) ++ ")") ++
        " AS (" ++ b ++ ")",
       args)

/-- Modelled from the spec: a With statement — CTE definitions, a recursive
flag, and the terminal
statement (the Update/Delete terminals are not modelled; the claims use a
Select terminal). -/
structure WithStmt where
  ctes : List WithCTE
  isRecursive : Bool := false
  topSelect : Option Select := none

/-- Modelled from the spec: serialization of a With statement —
`WITH [RECURSIVE] defs\nterminal`,
with CTE-definition arguments before terminal-statement arguments; a missing
terminal is an Empty error. -/
def serializeWith (w : WithStmt) : Except Dml.DmlError (String × List Dml.Value) :=
  match w.topSelect with
  | none => .error .empty
  | some top =>
    match w.ctes.mapM serializeCTE with
    | .error e => .error e
    | .ok parts =>
      .ok
        ("WITH " ++ (if w.isRecursive then "RECURSIVE " else "") ++
          String.intercalate ",\n" (parts.map Prod.fst) ++ "\n" ++ serializeSelect top,
         parts.flatMap Prod.snd ++ selectArgs top)

/-- Pointwise update of the bound argument values of one condition, leaving
the clause structure untouched (models re-binding with different values). -/
def mapCondValues (f : Dml.Value → Dml.Value) : Cond → Cond
  | .col n op args o => .col n op (args.map f) o
  | .expr r args o => .expr r (args.map f) o
  | c => c

/-- Re-binding a Select with different argument values: every bound value of
the WHERE and HAVING conditions is replaced, the clause structure and the
build cache stay as they are. -/
def updateArgValues (f : Dml.Value → Dml.Value) (s : Select) : Select :=
  { s with
    wheres := s.wheres.map (mapCondValues f)
    havings := s.havings.map (mapCondValues f) }

/-- The Select of the fixture `NewSelect("a").From("b").Where(Column("a").In().Ints())`
with an empty int slice (`TestSelectWhereNULL`, subtest
"empty Ints trigger invalid SQL"). -/
def selEmptyIn : Select :=
  { columns := [.quoted "a"]
    fromTable := some ("b", none)
    wheres := [.col "a" .inOp [.ints []] false] }

end Dbr


set_option maxRecDepth 1000000

namespace Dml

/-- With no bound arguments, `nextUnnamedArg` always reports exhaustion. -/
theorem nextUnnamedArg_nil (pos : Int) : nextUnnamedArg [] pos = (none, -1) := by
  unfold nextUnnamedArg
  split <;> rfl

/-- Expansion substitutes for the first `?` of the remaining template the
placeholder run of the first remaining argument: the correspondence between
`?` occurrences and arguments is positional, in argument order. -/
theorem expandChars_insert (a : Value) (args : List Value) :
    ∀ (pre rest : List Char), '?' ∉ pre →
      expandChars (a :: args) (pre ++ '?' :: rest) =
        String.mk pre ++ ((if a.isSlice = true then phList a.leafLen else "?") ++
          expandChars args rest) := by
  intro pre
  induction pre with
  | nil => intro rest _; simp [expandChars]
  | cons c pre ih =>
    intro rest hpre
    have hc : ¬c = '?' := fun h => hpre (h ▸ List.mem_cons_self c pre)
    have hpre' : '?' ∉ pre := fun h => hpre (List.mem_cons_of_mem c h)
    have hmk : String.singleton c ++ String.mk pre = String.mk (c :: pre) := rfl
    rw [List.cons_append]
    rw [show expandChars (a :: args) (c :: (pre ++ '?' :: rest)) =
      String.singleton c ++ expandChars (a :: args) (pre ++ '?' :: rest) by
        simp [expandChars, hc]]
    rw [ih rest hpre']
    rw [← String.append_assoc, hmk]

/-- Interpolation substitutes for the first `?` of the remaining template the
literal of the first remaining argument, positionally. -/
theorem interpolateChars_insert (a : Value) (args : List Value) :
    ∀ (pre rest : List Char), '?' ∉ pre →
      interpolateChars (a :: args) (pre ++ '?' :: rest) =
        (interpolateChars args rest).map
          (fun s => String.mk pre ++ (literalOf a ++ s)) := by
  intro pre
  induction pre with
  | nil =>
    intro rest _
    simp only [List.nil_append]
    rw [show interpolateChars (a :: args) ('?' :: rest) =
      (match interpolateChars args rest with
       | .ok s => .ok (literalOf a ++ s)
       | .error e => .error e) by simp [interpolateChars]]
    rcases h : interpolateChars args rest with s | e <;> simp [Except.map, h]
  | cons c pre ih =>
    intro rest hpre
    have hc : ¬c = '?' := fun h => hpre (h ▸ List.mem_cons_self c pre)
    have hpre' : '?' ∉ pre := fun h => hpre (List.mem_cons_of_mem c h)
    have hmk : String.singleton c ++ String.mk pre = String.mk (c :: pre) := rfl
    rw [List.cons_append]
    rw [show interpolateChars (a :: args) (c :: (pre ++ '?' :: rest)) =
      (match interpolateChars (a :: args) (pre ++ '?' :: rest) with
       | .ok s => .ok (String.singleton c ++ s)
       | .error e => .error e) by simp [interpolateChars, hc]]
    rw [ih rest hpre']
    rcases h : interpolateChars args rest with e | s
    · simp [Except.map, h]
    · simp only [Except.map, h]
      rw [← String.append_assoc, hmk]

/-- Record scan for one column when the column qualifier is nonempty and every
record is qualified: no default-qualifier fixup fires, the qualifier is
unchanged, the match flag reports whether any record qualifier matches, and
the extracted values are exactly those of the matching records, in record
order. -/
theorem scanRecs_qualified (dq col : String) (recs : List QualifiedRecord)
    (q : String) (found : Bool) (acc : List Argument)
    (hq : q ≠ "") (hr : ∀ r ∈ recs, r.qualifier ≠ "") :
    scanRecs dq col recs q found acc =
      (q, (found || recs.any fun r => r.qualifier == q),
        acc ++ recs.flatMap fun r =>
          if r.qualifier = q then (r.mapColumns col).map Argument.unnamed else []) := by
  induction recs generalizing found acc with
  | nil => simp [scanRecs]
  | cons r rest ih =>
    have hr0 : r.qualifier ≠ "" := hr r (List.mem_cons_self r rest)
    have hrest : ∀ x ∈ rest, x.qualifier ≠ "" := fun x hx => hr x (List.mem_cons_of_mem r hx)
    simp only [scanRecs]
    rw [if_neg (show ¬(r.qualifier = "" ∧ q ≠ "") from fun h => hr0 h.1)]
    rw [if_neg (show ¬(r.qualifier ≠ "" ∧ q = "") from fun h => hq h.2)]
    by_cases hm : r.qualifier = q
    · rw [if_pos hm, ih true _ hrest]
      simp [hm, List.append_assoc]
    · rw [if_neg hm, ih found acc hrest]
      have hb : (r.qualifier == q) = false := beq_eq_false_iff_ne.mpr hm
      simp [List.any_cons, List.flatMap_cons, hm, hb]

/-- Resolution of a fully qualified identifier with no bound arguments:
exactly the matching records' values are appended, in record order; with no
match and no positional argument left, nothing is appended and the cursor
parks at -1. -/
theorem resolveIdentifier_qualified (a : DBRState) (recs : List QualifiedRecord)
    (hargs : a.arguments = []) (hr : ∀ r ∈ recs, r.qualifier ≠ "")
    (id : String) (h1 : (splitColumn id).1 ≠ "")
    (h2 : (cutNamedArgStartStr (splitColumn id).2).2 = false)
    (acc : List Argument) (pos : Int) :
    ∃ pos', resolveIdentifier a recs (acc, pos) id =
      (acc ++ recs.flatMap (fun r =>
        if r.qualifier = (splitColumn id).1 then
          (r.mapColumns (cutNamedArgStartStr (splitColumn id).2).1).map Argument.unnamed
        else []), pos') := by
  unfold resolveIdentifier
  rw [if_neg (show ¬((cutNamedArgStartStr (splitColumn id).2).2 = true ∧ a.arguments ≠ []) by
    simp [h2])]
  rw [scanRecs_qualified a.defaultQualifier (cutNamedArgStartStr (splitColumn id).2).1 recs
    (splitColumn id).1 false [] h1 hr]
  by_cases hf : (recs.any fun r => r.qualifier == (splitColumn id).1) = true
  · exact ⟨pos, by simp [hf]⟩
  · have hb := eq_false_of_ne_true hf
    have hnil : (recs.flatMap fun r =>
        if r.qualifier = (splitColumn id).1 then
          (r.mapColumns (cutNamedArgStartStr (splitColumn id).2).1).map Argument.unnamed
        else []) = [] := by
      rw [List.flatMap_eq_nil_iff]
      intro r hrr
      have := (List.any_eq_false.mp hb) r hrr
      simp only [beq_iff_eq] at this
      rw [if_neg this]
    refine ⟨-1, ?_⟩
    rw [hargs]
    simp [hb, hnil, nextUnnamedArg_nil]

/-- The qualified-column fold with no bound arguments: values are produced in
qualified-column (SQL) order, each from its matching records. -/
theorem foldResolve_qualified (a : DBRState) (recs : List QualifiedRecord)
    (hargs : a.arguments = []) (hr : ∀ r ∈ recs, r.qualifier ≠ "") :
    ∀ (qcols : List String),
      (∀ id ∈ qcols,
        (splitColumn id).1 ≠ "" ∧ (cutNamedArgStartStr (splitColumn id).2).2 = false) →
      ∀ (acc : List Argument) (pos : Int),
        (qcols.foldl (resolveIdentifier a recs) (acc, pos)).1 =
          acc ++ qcols.flatMap (fun id => recs.flatMap fun r =>
            if r.qualifier = (splitColumn id).1 then
              (r.mapColumns (cutNamedArgStartStr (splitColumn id).2).1).map Argument.unnamed
            else []) := by
  intro qcols
  induction qcols with
  | nil => intro _ acc pos; simp
  | cons id rest ih =>
    intro hid acc pos
    obtain ⟨h1, h2⟩ := hid id (List.mem_cons_self id rest)
    obtain ⟨pos1, hp⟩ := resolveIdentifier_qualified a recs hargs hr id h1 h2 acc pos
    rw [List.foldl_cons, hp, ih (fun x hx => hid x (List.mem_cons_of_mem id hx)) _ pos1]
    simp [List.append_assoc]

end Dml

/-- C5: for every DBR argument resolution (no raw positional arguments bound,
qualified identifiers, qualified records), the bound values are produced in
the order the qualified columns appear in the cached SQL — not in the order
of the bind calls — and a qualified column whose qualifier matches no bound
record, with no unused positional argument remaining, is silently skipped:
no value is appended and no error is returned.  The first closed instance
binds two records in the reverse of their SQL order and still receives the
values in SQL order; the second has a second placeholder with no matching
record and resolves without error to one bound value for two placeholders. -/
theorem appendConvertedRecords_order_and_skip :
    (∀ (a : Dml.DBRState) (recs : List Dml.QualifiedRecord)
        (collectedArgs : List Dml.Argument),
      a.arguments = [] →
      a.qualifiedColumnsAliases = [] →
      a.templateStmtCount ≤ 1 →
      recs.isEmpty = false →
      (∀ r ∈ recs, r.qualifier ≠ "") →
      (∀ id ∈ a.qualifiedColumns,
        (Dml.splitColumn id).1 ≠ "" ∧
          (Dml.cutNamedArgStartStr (Dml.splitColumn id).2).2 = false) →
      Dml.appendConvertedRecordsToArguments a collectedArgs recs =
        .ok
          (let res := a.qualifiedColumns.flatMap fun id => recs.flatMap fun r =>
            if r.qualifier = (Dml.splitColumn id).1 then
              (r.mapColumns (Dml.cutNamedArgStartStr (Dml.splitColumn id).2).1).map
                Dml.Argument.unnamed
            else []
           if res ≠ [] then res else collectedArgs)) ∧
    Dml.appendConvertedRecordsToArguments
      ({ qualifiedColumns := ["alpha.a", "beta.b"] } : Dml.DBRState) []
      [⟨"beta", fun c => if c = "b" then [Dml.Value.int 20] else []⟩,
       ⟨"alpha", fun c => if c = "a" then [Dml.Value.int 10] else []⟩] =
      .ok [.unnamed (.int 10), .unnamed (.int 20)] ∧
    Dml.appendConvertedRecordsToArguments
      ({ qualifiedColumns := ["alpha.a", "beta.b"] } : Dml.DBRState) []
      [⟨"alpha", fun c => if c = "a" then [Dml.Value.int 10] else []⟩] =
      .ok [.unnamed (.int 10)] := by
  refine ⟨?_, rfl, rfl⟩
  intro a recs collected hargs halias htsc hrecs hr hid
  unfold Dml.appendConvertedRecordsToArguments
  rw [if_neg (show ¬(a.arguments = [] ∧ recs.isEmpty = true) from fun h => by
    rw [hrecs] at h; exact Bool.false_ne_true h.2)]
  rw [if_neg (show ¬(a.arguments ≠ [] ∧ recs.isEmpty = true ∧ a.hasNamedArgs < 2) from
    fun h => h.1 hargs)]
  rw [if_neg (show ¬(a.qualifiedColumnsAliases ≠ [] ∧
      a.qualifiedColumnsAliases.length ≠ a.qualifiedColumns.length) from fun h => h.1 halias)]
  rw [if_neg (show ¬(a.qualifiedColumnsAliases ≠ []) from fun h => h halias)]
  have htsc1 : (if a.templateStmtCount = 0 then 1 else a.templateStmtCount) = 1 := by
    by_cases h0 : a.templateStmtCount = 0
    · simp [h0]
    · simp only [if_neg h0]
      omega
  rw [htsc1]
  simp only [Dml.runTemplate]
  rw [Dml.foldResolve_qualified a recs hargs hr a.qualifiedColumns hid [] a.nextUnnamedArgPos]
  simp

/-- C1: with the expand-placeholders option active, each single `?` whose
corresponding argument is a slice of length N becomes N comma-joined `?`
placeholders, in argument order, and the template is left unchanged when the
`?` count already equals the number of leaf values and no argument is a
slice; `WHERE id IN (?)` with one 3-element int slice expands to
`WHERE id IN (?,?,?)` and the flattened argument list has length 3 in the
original order. -/
theorem expandPlaceHolders_spec :
    (∀ (sql : String) (args : List Dml.Value),
      (Dml.totalSliceLen args).2 = false →
      Dml.countPlaceHolders sql = (Dml.totalSliceLen args).1 →
      Dml.expandStep sql args = sql) ∧
    (∀ (a : Dml.Value) (args : List Dml.Value) (pre rest : List Char),
      '?' ∉ pre →
      Dml.expandChars (a :: args) (pre ++ '?' :: rest) =
        String.mk pre ++ ((if a.isSlice = true then Dml.phList a.leafLen else "?") ++
          Dml.expandChars args rest)) ∧
    Dml.expandStep "WHERE id IN (?)" [Dml.Value.ints [1, 2, 3]] = "WHERE id IN (?,?,?)" ∧
    Dml.flattenValues [Dml.Value.ints [1, 2, 3]] =
      [Dml.Value.int 1, Dml.Value.int 2, Dml.Value.int 3] ∧
    Dml.expandStep "WHERE x = ? AND y IN (?)" [Dml.Value.int 9, Dml.Value.ints [5, 6, 7]] =
      "WHERE x = ? AND y IN (?,?,?)" ∧
    Dml.flattenValues [Dml.Value.int 9, Dml.Value.ints [5, 6, 7]] =
      [Dml.Value.int 9, Dml.Value.int 5, Dml.Value.int 6, Dml.Value.int 7] := by
  refine ⟨?_, Dml.expandChars_insert, rfl, rfl, rfl, rfl⟩
  intro sql args hns hcount
  simp [Dml.expandStep, hcount, hns]

/-- C2: interpolation replaces each placeholder with the literal SQL form of
its argument — strings single-quoted with backslash escaping of
quote/backslash/control characters, integers in canonical decimal form,
booleans as 0/1, NULL as bare NULL — so `WHERE (d = ?) OR (e = ?)` with
`[1, "wat"]` yields exactly `WHERE (d = 1) OR (e = 'wat')`; the benchmark
template of `BenchmarkInterpolate` reproduces its expected string. -/
theorem writeInterpolate_literals :
    (∀ (a : Dml.Value) (args : List Dml.Value) (pre rest : List Char),
      '?' ∉ pre →
      Dml.interpolateChars (a :: args) (pre ++ '?' :: rest) =
        (Dml.interpolateChars args rest).map
          (fun s => String.mk pre ++ (Dml.literalOf a ++ s))) ∧
    Dml.writeInterpolate "WHERE (d = ?) OR (e = ?)"
      [Dml.Value.int 1, Dml.Value.str "wat"] =
      .ok "WHERE (d = 1) OR (e = 'wat')" ∧
    Dml.writeInterpolate
      "SELECT * FROM x WHERE a = ? AND b = ? AND c = ? AND d = ? AND e = ? AND f = ? AND g = ? AND h = ? AND i = ? AND j = ? AND k = ? AND l = ?"
      [Dml.Value.int 1, Dml.Value.int (-2), Dml.Value.int 3, Dml.Value.int 4,
       Dml.Value.int 5, Dml.Value.int 6, Dml.Value.int 7, Dml.Value.int 8,
       Dml.Value.int 9, Dml.Value.int 10, Dml.Value.str "Hello", Dml.Value.bool true] =
      .ok "SELECT * FROM x WHERE a = 1 AND b = -2 AND c = 3 AND d = 4 AND e = 5 AND f = 6 AND g = 7 AND h = 8 AND i = 9 AND j = 10 AND k = 'Hello' AND l = 1" ∧
    Dml.mysqlQuote "a'b\\c\nd" = "'a\\'b\\\\c\\nd'" ∧
    Dml.literalOf (Dml.Value.bool true) = "1" ∧
    Dml.literalOf (Dml.Value.bool false) = "0" ∧
    Dml.literalOf Dml.Value.null = "NULL" ∧
    Dml.literalOf (Dml.Value.int (-2)) = "-2" :=
  ⟨Dml.interpolateChars_insert, rfl, rfl, rfl, rfl, rfl, rfl, rfl⟩

/-- C3 counterexample: the claim attributes the emitted connector to the
condition that PRECEDES the boundary; on a list whose first condition carries
`.Or()` and whose second does not, the modelled serializer emits AND (the
connector of the condition being written) while the claim's rule emits OR —
the two disagree on this concrete input. -/
theorem writeConds_connector_cx :
    Dbr.writeConds
      [.col "d" .equal [.int 1] true, .col "e" .equal [.str "wat"] false] =
      "(`d` = ?) AND (`e` = ?)" ∧
    Dbr.writeCondsClaim
      [.col "d" .equal [.int 1] true, .col "e" .equal [.str "wat"] false] =
      "(`d` = ?) OR (`e` = ?)" ∧
    Dbr.writeConds
      [.col "d" .equal [.int 1] true, .col "e" .equal [.str "wat"] false] ≠
      Dbr.writeCondsClaim
        [.col "d" .equal [.int 1] true, .col "e" .equal [.str "wat"] false] := by
  refine ⟨rfl, rfl, ?_⟩
  decide

/-- C3 (amended): before each condition except the first the serializer emits
the stored AND/OR connector of the condition BEING WRITTEN (the condition
that follows the boundary — the one `.Or()` was called on); in particular
`Where(Column("d").Int(1), Column("e").Str("wat").Or())` serializes with an
OR between the two comparisons, giving `WHERE (`d` = ?) OR (`e` = ?)` with
arguments [1, "wat"], and the parenthesized variant of the full fixture
serializes as in `TestSelectFullToSQL`. -/
theorem writeConds_connector :
    (∀ (name : String) (op : Dbr.Op) (vals : List Dml.Value) (o : Bool)
        (rest : List Dbr.Cond),
      Dbr.writeCondsGo (.col name op vals o :: rest) false =
        (if o then " OR " else " AND ") ++ "(" ++
          Dbr.renderCond (.col name op vals o) ++ ")" ++ Dbr.writeCondsGo rest false) ∧
    (∀ (name : String) (op : Dbr.Op) (vals : List Dml.Value) (o : Bool)
        (rest : List Dbr.Cond),
      Dbr.writeCondsGo (.col name op vals o :: rest) true =
        "(" ++ Dbr.renderCond (.col name op vals o) ++ ")" ++
          Dbr.writeCondsGo rest false) ∧
    Dbr.writeConds [.col "d" .equal [.int 1] false, .col "e" .equal [.str "wat"] true] =
      "(`d` = ?) OR (`e` = ?)" ∧
    Dbr.condsArgValues [.col "d" .equal [.int 1] false, .col "e" .equal [.str "wat"] true] =
      [.int 1, .str "wat"] ∧
    Dbr.writeConds
      [Dbr.Cond.parenOpen, .col "d" .equal [.int 1] false,
       .col "e" .equal [.str "wat"] true, Dbr.Cond.parenClose,
       .col "f" .equal [.int 2] false, .col "g" .equal [.int 3] false,
       .col "h" .inOp [.ints [4, 5, 6]] false] =
      "((`d` = ?) OR (`e` = ?)) AND (`f` = ?) AND (`g` = ?) AND (`h` IN (?,?,?))" := by
  refine ⟨?_, ?_, rfl, rfl, rfl⟩
  · intro name op vals o rest
    cases o <;> simp [Dbr.writeCondsGo, Dbr.Cond.isOr, String.append_assoc]
  · intro name op vals o rest
    cases o <;> simp [Dbr.writeCondsGo, Dbr.Cond.isOr, String.append_assoc]

/-- C4: an unmutated builder yields byte-identical SQL and argument lists on
two consecutive `ToSQL` calls, and a `BuildCache()`-marked Select returns its
first serialized SQL string verbatim on every later call even after all bound
argument values are replaced. -/
theorem select_toSQL_idempotent_buildCache :
    (∀ s : Dbr.Select,
      ((s.ToSQL).1.ToSQL).2.1 = (s.ToSQL).2.1 ∧
        ((s.ToSQL).1.ToSQL).2.2 = (s.ToSQL).2.2) ∧
    (∀ (s : Dbr.Select) (f : Dml.Value → Dml.Value),
      s.useCache = true →
      ((Dbr.updateArgValues f (s.ToSQL).1).ToSQL).2.1 = (s.ToSQL).2.1) ∧
    ((Dbr.updateArgValues (fun _ => Dml.Value.int 99)
        ((Dbr.Select.BuildCache
          { columns := [.quoted "a"], fromTable := some ("c", none),
            wheres := [.col "d" .equal [.int 1] false] }).ToSQL).1).ToSQL).2.1 =
      "SELECT `a` FROM `c` WHERE (`d` = ?)" ∧
    ((Dbr.updateArgValues (fun _ => Dml.Value.int 99)
        ((Dbr.Select.BuildCache
          { columns := [.quoted "a"], fromTable := some ("c", none),
            wheres := [.col "d" .equal [.int 1] false] }).ToSQL).1).ToSQL).2.2 =
      [Dml.Value.int 99] := by
  refine ⟨?_, ?_, rfl, rfl⟩
  · intro s
    match h : s.cacheSQL with
    | some q => exact ⟨by simp [Dbr.Select.ToSQL, h], by simp [Dbr.Select.ToSQL, h]⟩
    | none =>
      by_cases hc : s.useCache <;>
        exact ⟨by simp [Dbr.Select.ToSQL, h, hc, Dbr.selectArgs],
               by simp [Dbr.Select.ToSQL, h, hc, Dbr.selectArgs]⟩
  · intro s f hc
    match h : s.cacheSQL with
    | some q => simp [Dbr.Select.ToSQL, Dbr.updateArgValues, h]
    | none => simp [Dbr.Select.ToSQL, Dbr.updateArgValues, h, hc]

/-- C6: the recursive CTE named `cte` with column list (n), body the UNION
ALL of `SELECT 1` and `SELECT n+1 FROM cte WHERE n < 5`, and terminal
`SELECT * FROM cte` serializes to exactly the fixture string with argument
list [5]; the Union's own member parentheses sit inside the CTE body
parentheses, and CTE-definition arguments precede terminal-statement
arguments (second instance: terminal argument 7 follows CTE argument 5). -/
theorem with_recursive_cte_serialization :
    Dbr.serializeWith
      { ctes := [{ name := "cte", columns := ["n"],
                   union := some { selects := [{ columns := [.raw "1"] },
                     { columns := [.raw "n+1"], fromTable := some ("cte", none),
                       wheres := [.col "n" .less [.int 5] false] }], isAll := true } }]
        isRecursive := true
        topSelect := some { columns := [.raw "*"], fromTable := some ("cte", none) } } =
      .ok
        ("WITH RECURSIVE `cte` (`n`) AS ((SELECT 1)\nUNION ALL\n(SELECT n+1 FROM `cte` WHERE (`n` < ?)))\nSELECT * FROM `cte`",
         [.int 5]) ∧
    Dbr.serializeWith
      { ctes := [{ name := "cte", columns := ["n"],
                   union := some { selects := [{ columns := [.raw "1"] },
                     { columns := [.raw "n+1"], fromTable := some ("cte", none),
                       wheres := [.col "n" .less [.int 5] false] }], isAll := true } }]
        isRecursive := true
        topSelect := some
          { columns := [.raw "*"], fromTable := some ("cte", none),
            wheres := [.col "m" .equal [.int 7] false] } } =
      .ok
        ("WITH RECURSIVE `cte` (`n`) AS ((SELECT 1)\nUNION ALL\n(SELECT n+1 FROM `cte` WHERE (`n` < ?)))\nSELECT * FROM `cte` WHERE (`m` = ?)",
         [.int 5, .int 7]) :=
  ⟨rfl, rfl⟩

/-- C7 counterexample: the Select with `Column("a").In().Ints()` over an
empty slice serializes to `SELECT `a` FROM `b` WHERE (`a` IN )` — the
substring `IN (` does not occur in the output, contradicting the claim's
description of the incomplete clause as `IN (` with no content. -/
theorem empty_in_clause_cx :
    (Dbr.Select.ToSQL Dbr.selEmptyIn).2.1 = "SELECT `a` FROM `b` WHERE (`a` IN )" ∧
    Dml.findSubIndexAux "IN (".data (Dbr.Select.ToSQL Dbr.selEmptyIn).2.1.data 0 = none :=
  ⟨rfl, rfl⟩

/-- C7 (amended): an empty slice under `In()` renders the operator as bare
`IN ` with no value list at all, so the serialized SQL reads `(`a` IN )` —
syntactically incomplete and deliberately passed through: serialization
completes without error, with an empty argument list. -/
theorem empty_in_clause :
    (Dbr.Select.ToSQL Dbr.selEmptyIn).2.1 = "SELECT `a` FROM `b` WHERE (`a` IN )" ∧
    (Dml.findSubIndexAux "IN )".data (Dbr.Select.ToSQL Dbr.selEmptyIn).2.1.data 0).isSome =
      true ∧
    Dbr.renderOp .inOp [.ints []] = " IN " ∧
    (Dbr.Select.ToSQL Dbr.selEmptyIn).2.2 = [] :=
  ⟨rfl, rfl, rfl, rfl⟩

/-- C8: `Count()` makes the generated SQL use `COUNT(*) AS counted` as the
sole selected expression while the stored column list and every other clause
of the statement are unchanged; the fixture Select still reports its columns
as `a`, `b` afterwards. -/
theorem select_count_frame :
    (∀ s : Dbr.Select,
      (Dbr.Select.Count s).columns = s.columns ∧
      Dbr.writeQuotedColumns (Dbr.Select.Count s) = Dbr.writeQuotedColumns s ∧
      Dbr.columnsFragment (Dbr.Select.Count s) = "COUNT(*) AS `counted`" ∧
      Dbr.fromFragment (Dbr.Select.Count s) = Dbr.fromFragment s ∧
      Dbr.tailFragment (Dbr.Select.Count s) = Dbr.tailFragment s ∧
      Dbr.selectArgs (Dbr.Select.Count s) = Dbr.selectArgs s ∧
      Dbr.serializeSelect (Dbr.Select.Count s) =
        "SELECT " ++ (if s.distinct then "DISTINCT " else "") ++ "COUNT(*) AS `counted`" ++
          Dbr.fromFragment s ++ Dbr.tailFragment s) ∧
    Dbr.serializeSelect
      (Dbr.Select.Count
        { columns := [.quoted "a", .quoted "b"],
          fromTable := some ("dbr_people", none) }) =
      "SELECT COUNT(*) AS `counted` FROM `dbr_people`" ∧
    Dbr.writeQuotedColumns
      (Dbr.Select.Count
        { columns := [.quoted "a", .quoted "b"],
          fromTable := some ("dbr_people", none) }) =
      "`a`, `b`" :=
  ⟨fun _ => ⟨rfl, rfl, rfl, rfl, rfl, rfl, rfl⟩, rfl, rfl⟩

/-- C9 counterexample: a non-INSERT DBR with interpolation enabled, no bound
arguments and no records, given one raw external argument, does NOT fail:
`prepareArgs` returns the cached SQL together with the raw argument (the
empty-arguments early return precedes the NotAllowed check, which is
unreachable on the general path). -/
theorem prepareArgs_notAllowed_cx :
    Dml.prepareArgs
      ({ cachedSQL := [("", "SELECT `a` FROM `b`")], options := 2 } : Dml.DBRState)
      [.raw (.int 1)] = .ok ("SELECT `a` FROM `b`", [.int 1]) ∧
    Dml.prepareArgs
      ({ cachedSQL := [("", "SELECT `a` FROM `b`")], options := 2 } : Dml.DBRState)
      [.raw (.int 1)] ≠ .error .notAllowed := by
  have h : Dml.prepareArgs
      ({ cachedSQL := [("", "SELECT `a` FROM `b`")], options := 2 } : Dml.DBRState)
      [.raw (.int 1)] = .ok ("SELECT `a` FROM `b`", [.int 1]) := rfl
  exact ⟨h, fun hcontra => Except.noConfusion (h.symm.trans hcontra)⟩

/-- C9 (amended): on the INSERT preparation path, raw untyped external
arguments under active interpolation/expansion options with no records and no
typed arguments fail with NotAllowed; on the general preparation path the
same combination is silently accepted — the empty-arguments early return
yields the cached SQL with the raw arguments and the NotAllowed check is
unreachable there. -/
theorem prepareArgs_notAllowed :
    (∀ (a : Dml.DBRState) (extArgs : List Dml.ExtArg),
      a.source = .insert →
      a.isPrepared = false →
      0 < a.options →
      a.arguments = [] →
      a.recs = [] →
      a.argErr = none →
      extArgs ≠ [] →
      (∀ x ∈ extArgs, ∃ v, x = .raw v) →
      Dml.prepareArgs a extArgs = .error .notAllowed) ∧
    Dml.prepareArgs
      ({ cachedSQL := [("", "INSERT INTO `t` (`c`)")], source := .insert, options := 2 }
        : Dml.DBRState)
      [.raw (.int 1)] = .error .notAllowed ∧
    Dml.prepareArgs
      ({ cachedSQL := [("", "SELECT `a` FROM `b`")], options := 2 } : Dml.DBRState)
      [.raw (.int 1)] = .ok ("SELECT `a` FROM `b`", [.int 1]) := by
  refine ⟨?_, rfl, rfl⟩
  intro a extArgs hsrc hprep hopt hargs hrecs herr hne hraw
  have hrecE : extArgs.filterMap
      (fun x => match x with | .record r => some r | _ => none) = [] := by
    rw [List.filterMap_eq_nil_iff]
    intro x hx
    obtain ⟨v, rfl⟩ := hraw x hx
    rfl
  have hvalE : extArgs.filterMap
      (fun x => match x with | .raw v => some v | _ => none) ≠ [] := by
    rcases extArgs with _ | ⟨x, t⟩
    · exact absurd rfl hne
    · obtain ⟨v, hv⟩ := hraw x (List.mem_cons_self x t)
      subst hv
      simp
  unfold Dml.prepareArgs
  rw [herr]
  simp only [hsrc, hrecE, hrecs, List.nil_append, List.append_nil, reduceIte]
  unfold Dml.prepareArgsInsert
  rw [hargs]
  simp only [List.any_nil, List.flatMap_nil, List.append_nil, List.nil_append, reduceIte,
    Bool.false_eq_true, if_false]
  simp only [hprep, Bool.false_eq_true, if_false]
  rw [if_pos ⟨hopt, hvalE, by simp⟩]

/-- C10: after every successful `DBR.Load` (and loadPrimitive/LoadInt64s/
LoadUint64s/LoadFloat64s/LoadStrings) the deferred `Reset` clears the bound
arguments, qualified records, insert-values state and unnamed-argument
cursor, while the cached SQL template for the current cache key is left
unchanged; the DBR afterwards reports itself empty. -/
theorem load_reset_frame (a : Dml.DBRState) :
    (Dml.loadFinalize a).arguments = [] ∧
    (Dml.loadFinalize a).recs = [] ∧
    (Dml.loadFinalize a).nextUnnamedArgPos = 0 ∧
    (Dml.loadFinalize a).insertIsBuildValues = false ∧
    (Dml.loadFinalize a).insertCachedSQL = "" ∧
    (Dml.loadFinalize a).cachedSQL = a.cachedSQL ∧
    (Dml.loadFinalize a).cacheKey = a.cacheKey ∧
    Dml.lookupSQL (Dml.loadFinalize a).cachedSQL (Dml.loadFinalize a).cacheKey =
      Dml.lookupSQL a.cachedSQL a.cacheKey ∧
    (Dml.loadFinalize a).isEmpty = true :=
  ⟨rfl, rfl, rfl, rfl, rfl, rfl, rfl, rfl, rfl⟩
